import Mathlib

/-!
Shallow embedding of the sliding-window rate limiter in
`src/rate_limiter.py` (class `RateLimiter`) and of its near-duplicate in
`src/app.py`, together with proofs of the specification's claims about it.

Modelling choices:
* A Redis sorted-set key is modelled by `Record`: a finite set of rational
  scores plus an optional absolute expiry instant.  Every member string the
  code ever writes is `str(ts)` for its own score `ts`, and `str` is
  injective on distinct floats, so the member/score pairs are faithfully
  represented by the set of scores alone.
* The whole store is a function from key strings to records; a key that does
  not exist in Redis is a record with an empty event set and no expiry.
* Timestamps (`time.time()` values) and the epsilon `0.00001` of `app.py`
  are rationals; `max_requests` / `window_seconds` are integers, as in the
  Python code after argument handling.
* Each engine call takes `current_time` as an explicit argument in place of
  reading the wall clock, and returns its verdict together with the updated
  store.
-/

namespace RateDist

section
attribute [local semireducible] Rat.add Rat.sub Rat.mul Rat.inv

/-- One Redis sorted-set key: the set of event timestamps (scores) it holds
and, when the key exists with a TTL, the absolute instant at which it
expires.  A key with no events does not exist in Redis, hence carries no
expiry. -/
structure Record where
  events : Finset ℚ
  expiry : Option ℚ
  deriving DecidableEq

/-- The record of a key that is absent from the store. -/
def emptyRecord : Record := ⟨∅, none⟩

/-- The shared store: a total map from key strings to records. -/
abbrev Store := String → Record

/-- Point update of the store at one key. -/
def Store.update (s : Store) (k : String) (r : Record) : Store :=
  fun k2 => if k2 = k then r else s k2

/-- Redis `ZREMRANGEBYSCORE key lo hi`: removes every member whose score
lies in the closed interval `[lo, hi]`.  Redis deletes a sorted-set key
that becomes empty, so the expiry is dropped in that case. -/
def Record.zremrangebyscore (r : Record) (lo hi : ℚ) : Record :=
  let ev := r.events.filter (fun ts => ¬ (lo ≤ ts ∧ ts ≤ hi))
  ⟨ev, if ev = ∅ then none else r.expiry⟩

/-- Redis `ZCARD key`: the number of members. -/
def Record.zcard (r : Record) : ℕ := r.events.card

/-- Redis `ZADD key {str(ts): ts}`: inserting a member that already exists
replaces it (here: no change, since member and score coincide); the key's
TTL is not affected by `ZADD`. -/
def Record.zadd (r : Record) (ts : ℚ) : Record := ⟨insert ts r.events, r.expiry⟩

/-- Redis `EXPIRE key seconds` issued at instant `now`: a no-op on a
non-existent key; a non-positive ttl deletes the key; otherwise the key
expires at `now + seconds`. -/
def Record.expire (r : Record) (now : ℚ) (seconds : ℤ) : Record :=
  if r.events = ∅ then r
  else if seconds ≤ 0 then ⟨∅, none⟩
  else ⟨r.events, some (now + (seconds : ℚ))⟩

/-- Redis `ZREM key str(ts)`: removes the member; the key is deleted (and
its expiry dropped) if it becomes empty. -/
def Record.zrem (r : Record) (ts : ℚ) : Record :=
  let ev := r.events.erase ts
  ⟨ev, if ev = ∅ then none else r.expiry⟩

/-- The store key derived from an identifier: `f"rate_limit:{identifier}"`. -/
def rlKey (identifier : String) : String := "rate_limit:" ++ identifier

/-- Python `x or default` applied to an optional int argument: `None` and
`0` are both falsy and fall back to the default; any other value, including
negative ints, is kept. -/
def pyOr (x : Option ℤ) (d : ℤ) : ℤ :=
  match x with
  | none => d
  | some v => if v = 0 then d else v

/-- Python `int(x)` on a real value: truncation toward zero. -/
def pyInt (x : ℚ) : ℤ := if 0 ≤ x then Rat.floor x else Rat.ceil x

/-- The engine configuration fields consulted by the three operations:
`default_requests` and `default_window` (from `config.py`). -/
structure Config where
  default_requests : ℤ
  default_window : ℤ
  deriving DecidableEq

/-- The metadata dictionary built by `is_allowed`. -/
structure Metadata where
  limit : ℤ
  remaining : ℤ
  reset : ℤ
  retry_after : ℤ
  deriving DecidableEq

namespace RateLimiter

/-- `RateLimiter.is_allowed` from `src/rate_limiter.py` (lines 24-87):
defaulting of the two optional arguments via Python `or`, key derivation
`rate_limit:<identifier>`, the pipeline `zremrangebyscore` /` zcard` /
`zadd` / `expire`, metadata computation, the strict `<` verdict from the
pre-insert count, and the rejection-path `zrem` issued after the pipeline.
Returns `(is_allowed, metadata, updated store)`. -/
def is_allowed (cfg : Config) (store : Store) (identifier : String)
    (max_requests : Option ℤ) (window_seconds : Option ℤ) (current_time : ℚ) :
    Bool × Metadata × Store :=
  let maxRequests := pyOr max_requests cfg.default_requests
  let windowSeconds := pyOr window_seconds cfg.default_window
  let key := rlKey identifier
  let window_start := current_time - (windowSeconds : ℚ)
  let r1 := (store key).zremrangebyscore 0 window_start
  let request_count := r1.zcard
  let r2 := r1.zadd current_time
  let r3 := r2.expire current_time windowSeconds
  let reset_time := pyInt (current_time + (windowSeconds : ℚ))
  let remaining := max 0 (maxRequests - (request_count : ℤ) - 1)
  let md : Metadata :=
    ⟨maxRequests, remaining, reset_time,
      if maxRequests ≤ (request_count : ℤ) then windowSeconds else 0⟩
  let allowed : Bool := decide ((request_count : ℤ) < maxRequests)
  let r4 := if allowed then r3 else r3.zrem current_time
  (allowed, md, store.update key r4)

/-- `RateLimiter.reset` from `src/rate_limiter.py` (lines 89-100): deletes
the identifier's key; `bool(delete(key))` is true iff the key existed. -/
def reset (store : Store) (identifier : String) : Bool × Store :=
  let key := rlKey identifier
  (decide ((store key).events ≠ ∅), store.update key emptyRecord)

/-- `RateLimiter.get_usage` from `src/rate_limiter.py` (lines 102-120):
purges entries with score in `[0, now - window]` and returns the count,
without inserting anything. -/
def get_usage (cfg : Config) (store : Store) (identifier : String)
    (window_seconds : Option ℤ) (current_time : ℚ) : ℕ × Store :=
  let windowSeconds := pyOr window_seconds cfg.default_window
  let key := rlKey identifier
  let r1 := (store key).zremrangebyscore 0 (current_time - (windowSeconds : ℚ))
  (r1.zcard, store.update key r1)

end RateLimiter

namespace App

/-- The epsilon subtracted from the purge bound in `src/app.py`. -/
def eps : ℚ := 1 / 100000

/-- `RateLimiter.is_allowed` from `src/app.py` (lines 67-131): identical to
the `rate_limiter.py` version except that the purge bound is
`current_time - window_seconds - 0.00001`. -/
def is_allowed (cfg : Config) (store : Store) (identifier : String)
    (max_requests : Option ℤ) (window_seconds : Option ℤ) (current_time : ℚ) :
    Bool × Metadata × Store :=
  let maxRequests := pyOr max_requests cfg.default_requests
  let windowSeconds := pyOr window_seconds cfg.default_window
  let key := rlKey identifier
  let window_start := current_time - (windowSeconds : ℚ) - eps
  let r1 := (store key).zremrangebyscore 0 window_start
  let request_count := r1.zcard
  let r2 := r1.zadd current_time
  let r3 := r2.expire current_time windowSeconds
  let reset_time := pyInt (current_time + (windowSeconds : ℚ))
  let remaining := max 0 (maxRequests - (request_count : ℤ) - 1)
  let md : Metadata :=
    ⟨maxRequests, remaining, reset_time,
      if maxRequests ≤ (request_count : ℤ) then windowSeconds else 0⟩
  let allowed : Bool := decide ((request_count : ℤ) < maxRequests)
  let r4 := if allowed then r3 else r3.zrem current_time
  (allowed, md, store.update key r4)

/-- `RateLimiter.get_usage` from `src/app.py` (lines 146-164): identical to
the `rate_limiter.py` version except for the epsilon in the purge bound. -/
def get_usage (cfg : Config) (store : Store) (identifier : String)
    (window_seconds : Option ℤ) (current_time : ℚ) : ℕ × Store :=
  let windowSeconds := pyOr window_seconds cfg.default_window
  let key := rlKey identifier
  let r1 := (store key).zremrangebyscore 0 (current_time - (windowSeconds : ℚ) - eps)
  (r1.zcard, store.update key r1)

end App

/-- A sample configuration (the `config.py` environment defaults). -/
def cfg0 : Config := ⟨100, 60⟩

/-- The store in which every key is absent. -/
def store0 : Store := fun _ => emptyRecord

/-! ### A sequential run of `is_allowed` calls under one policy

`runStates k` is the store after the first `k` calls; the `i`-th call
(0-indexed) is made at time `t i`.  The times are strictly increasing and
all fall within one window of the first call, the situation the spec
describes as "issued sequentially with no real-time gap large enough to age
out earlier entries". -/

def runStates (cfg : Config) (identifier : String) (m w : ℤ) (t : ℕ → ℚ)
    (store : Store) : ℕ → Store
  | 0 => store
  | k + 1 =>
      (RateLimiter.is_allowed cfg (runStates cfg identifier m w t store k)
        identifier (some m) (some w) (t k)).2.2

/-- The full result of the call with 0-based index `k` in the run. -/
def callAt (cfg : Config) (identifier : String) (m w : ℤ) (t : ℕ → ℚ)
    (store : Store) (k : ℕ) : Bool × Metadata × Store :=
  RateLimiter.is_allowed cfg (runStates cfg identifier m w t store k)
    identifier (some m) (some w) (t k)

/-! ### Traces of engine calls (for identifier isolation) -/

/-- One engine call, as recorded in a trace. -/
inductive Call where
  | check (identifier : String) (max_requests window_seconds : Option ℤ)
      (current_time : ℚ)
  | reset (identifier : String)
  | usage (identifier : String) (window_seconds : Option ℤ) (current_time : ℚ)

/-- The identifier a call addresses. -/
def Call.ident : Call → String
  | .check identifier _ _ _ => identifier
  | .reset identifier => identifier
  | .usage identifier _ _ => identifier

/-- The store mutation performed by one call. -/
def applyCall (cfg : Config) (s : Store) : Call → Store
  | .check identifier mr ws tv => (RateLimiter.is_allowed cfg s identifier mr ws tv).2.2
  | .reset identifier => (RateLimiter.reset s identifier).2
  | .usage identifier ws tv => (RateLimiter.get_usage cfg s identifier ws tv).2

/-- Folding a trace of calls over the store. -/
def runTrace (cfg : Config) : Store → List Call → Store
  | s, [] => s
  | s, c :: cs => runTrace cfg (applyCall cfg s c) cs

/-! ### Two-phase model of one check (for the concurrency claim)

In the code the Redis pipeline (steps 1-5: purge, count, insert, expire)
executes atomically, but the rejection-path `zrem` (step 7) is issued as a
separate command after `pipe.execute()` returns.  A concurrent check on the
same key can therefore run its own pipeline between another call's pipeline
and its retraction.  `phase1` is the pipeline together with the verdict it
determines; `phase2` is the conditional retraction. -/

/-- The per-call arguments, after defaulting. -/
structure CallArgs where
  max_requests : ℤ
  window_seconds : ℤ
  current_time : ℚ
  deriving DecidableEq

/-- Steps 1-5 of `is_allowed` — the atomic Redis pipeline — on one record,
returning the verdict decided from the pre-insert count. -/
def phase1 (r : Record) (c : CallArgs) : Bool × Record :=
  let r1 := r.zremrangebyscore 0 (c.current_time - (c.window_seconds : ℚ))
  (decide ((r1.zcard : ℤ) < c.max_requests),
   (r1.zadd c.current_time).expire c.current_time c.window_seconds)

/-- Step 7 of `is_allowed` — the rejection-path `zrem`, issued outside the
pipeline. -/
def phase2 (r : Record) (c : CallArgs) (allowed : Bool) : Record :=
  if allowed then r else r.zrem c.current_time

/-- Serial execution of two checks on one record. -/
def runSerial (r : Record) (a b : CallArgs) : Bool × Bool × Record :=
  let pa := phase1 r a
  let ra := phase2 pa.2 a pa.1
  let pb := phase1 ra b
  let rb := phase2 pb.2 b pb.1
  (pa.1, pb.1, rb)

/-- Interleaved execution `A.pipeline, B.pipeline, A.retract, B.retract`. -/
def runInterleaved (r : Record) (a b : CallArgs) : Bool × Bool × Record :=
  let pa := phase1 r a
  let pb := phase1 pa.2 b
  let ra := phase2 pb.2 a pa.1
  let rb := phase2 ra b pb.1
  (pa.1, pb.1, rb)

/-- Interleaved execution `A.pipeline, B.pipeline, B.retract, A.retract`. -/
def runInterleaved2 (r : Record) (a b : CallArgs) : Bool × Bool × Record :=
  let pa := phase1 r a
  let pb := phase1 pa.2 b
  let rb := phase2 pb.2 b pb.1
  let ra := phase2 rb a pa.1
  (pa.1, pb.1, ra)

/-! ### Basic lemmas about the store, the record operations and defaulting -/

lemma Store.update_self (s : Store) (k : String) (r : Record) :
    s.update k r k = r := by
  simp [Store.update]

lemma Store.update_other (s : Store) (k k2 : String) (r : Record) (h : k2 ≠ k) :
    s.update k r k2 = s k2 := by
  simp [Store.update, h]

lemma rlKey_injective {a b : String} (h : rlKey a = rlKey b) : a = b := by
  obtain ⟨da⟩ := a
  obtain ⟨db⟩ := b
  have hd : ("rate_limit:".data ++ da) = ("rate_limit:".data ++ db) := by
    simpa [rlKey, String.append] using congrArg String.data h
  exact congrArg String.mk (List.append_cancel_left hd)

lemma pyOr_some {v d : ℤ} (h : v ≠ 0) : pyOr (some v) d = v := by
  simp [pyOr, h]

lemma pyOr_zero (d : ℤ) : pyOr (some 0) d = d := by
  simp [pyOr]

lemma zremrangebyscore_of_win (r : Record) (lo hi : ℚ)
    (hwin : ∀ ts ∈ r.events, hi < ts) :
    r.zremrangebyscore lo hi = ⟨r.events, if r.events = ∅ then none else r.expiry⟩ := by
  have hev : r.events.filter (fun ts => ¬ (lo ≤ ts ∧ ts ≤ hi)) = r.events := by
    refine Finset.filter_true_of_mem ?_
    intro ts hts
    exact fun hc => absurd hc.2 (not_le.mpr (hwin ts hts))
  simp only [Record.zremrangebyscore]
  rw [hev]

/-- Characterization of one `is_allowed` call in the regular situation: the
policy ints are nonzero (so the Python `or` keeps them), the window is
positive, the current timestamp is not already stored, and no stored entry
is old enough to be purged. -/
lemma is_allowed_fresh (cfg : Config) (store : Store) (identifier : String)
    (m w : ℤ) (now : ℚ) (hm : m ≠ 0) (hw : 1 ≤ w)
    (hfresh : now ∉ (store (rlKey identifier)).events)
    (hwin : ∀ ts ∈ (store (rlKey identifier)).events, now - (w : ℚ) < ts) :
    RateLimiter.is_allowed cfg store identifier (some m) (some w) now =
      (decide (((store (rlKey identifier)).events.card : ℤ) < m),
       ⟨m, max 0 (m - ((store (rlKey identifier)).events.card : ℤ) - 1),
        pyInt (now + (w : ℚ)),
        if m ≤ ((store (rlKey identifier)).events.card : ℤ) then w else 0⟩,
       store.update (rlKey identifier)
         (if ((store (rlKey identifier)).events.card : ℤ) < m then
            (⟨insert now (store (rlKey identifier)).events, some (now + (w : ℚ))⟩ : Record)
          else
            ⟨(store (rlKey identifier)).events,
             if (store (rlKey identifier)).events = ∅ then none
             else some (now + (w : ℚ))⟩)) := by
  have hpm : pyOr (some m) cfg.default_requests = m := pyOr_some hm
  have hpw : pyOr (some w) cfg.default_window = w := pyOr_some (by omega)
  have hw0 : ¬ (w ≤ 0) := by omega
  have hpurge := zremrangebyscore_of_win (store (rlKey identifier)) 0 (now - (w : ℚ)) hwin
  by_cases hc : (((store (rlKey identifier)).events.card : ℤ) < m)
  · simp [RateLimiter.is_allowed, hpm, hpw, hpurge, Record.zadd, Record.zcard,
      Record.expire, hw0, Finset.insert_ne_empty, hc]
  · simp [RateLimiter.is_allowed, hpm, hpw, hpurge, Record.zadd, Record.zcard,
      Record.expire, hw0, Finset.insert_ne_empty, hc, Record.zrem,
      Finset.erase_insert hfresh]

/-- Invariant of the run: after `k` calls the stored events are exactly the
times of the first `min k m` calls (the allowed ones). -/
lemma runStates_events (cfg : Config) (identifier : String) (m w : ℤ)
    (t : ℕ → ℚ) (store : Store) (N : ℕ)
    (hm : 1 ≤ m) (hw : 1 ≤ w) (hmono : StrictMono t)
    (hwin : t N < t 0 + (w : ℚ))
    (h0 : (store (rlKey identifier)).events = ∅) :
    ∀ k, k ≤ N + 1 →
      ((runStates cfg identifier m w t store k) (rlKey identifier)).events
        = (Finset.range (min k m.toNat)).image t := by
  intro k
  induction k with
  | zero => intro _; simp [runStates, h0]
  | succ k ih =>
    intro hk
    have hkN : k ≤ N := by omega
    have hev := ih (by omega)
    have hfresh :
        t k ∉ ((runStates cfg identifier m w t store k) (rlKey identifier)).events := by
      rw [hev]
      intro hmem
      obtain ⟨i, hi, hti⟩ := Finset.mem_image.mp hmem
      have hik : i < k := lt_of_lt_of_le (Finset.mem_range.mp hi) (min_le_left _ _)
      exact absurd (hmono.injective hti) (Nat.ne_of_lt hik)
    have hwink :
        ∀ ts ∈ ((runStates cfg identifier m w t store k) (rlKey identifier)).events,
          t k - (w : ℚ) < ts := by
      rw [hev]
      intro ts hts
      obtain ⟨i, hi, hti⟩ := Finset.mem_image.mp hts
      have h1 : t 0 ≤ t i := hmono.monotone (Nat.zero_le i)
      have h2 : t k ≤ t N := hmono.monotone hkN
      rw [← hti]
      linarith
    have hcard :
        ((runStates cfg identifier m w t store k) (rlKey identifier)).events.card
          = min k m.toNat := by
      rw [hev, Finset.card_image_of_injective _ hmono.injective, Finset.card_range]
    have hstep := is_allowed_fresh cfg (runStates cfg identifier m w t store k)
      identifier m w (t k) (by omega) hw hfresh hwink
    show ((RateLimiter.is_allowed cfg (runStates cfg identifier m w t store k)
        identifier (some m) (some w) (t k)).2.2 (rlKey identifier)).events = _
    rw [hstep]
    simp only [Store.update_self]
    rw [hcard, hev]
    by_cases hc : k < m.toNat
    · have hmin : min k m.toNat = k := min_eq_left (le_of_lt hc)
      have hcint : ((min k m.toNat : ℕ) : ℤ) < m := by
        rw [hmin]
        omega
      rw [if_pos hcint]
      have hmin1 : min (k + 1) m.toNat = k + 1 := min_eq_left (by omega)
      rw [hmin, hmin1, Finset.range_succ, Finset.image_insert]
    · have hmin : min k m.toNat = m.toNat := min_eq_right (by omega)
      have hcint : ¬ (((min k m.toNat : ℕ) : ℤ) < m) := by
        rw [hmin]
        omega
      rw [if_neg hcint]
      have hmin1 : min (k + 1) m.toNat = m.toNat := min_eq_right (by omega)
      rw [hmin, hmin1]

/-- The result of the call with index `k ≤ N` in the run: the verdict
compares `min k m` (the pre-insert count) against `m`, and `remaining` is
`max 0 (m - count - 1)`. -/
lemma callAt_eq (cfg : Config) (identifier : String) (m w : ℤ)
    (t : ℕ → ℚ) (store : Store) (N : ℕ)
    (hm : 1 ≤ m) (hw : 1 ≤ w) (hmono : StrictMono t)
    (hwin : t N < t 0 + (w : ℚ))
    (h0 : (store (rlKey identifier)).events = ∅)
    (k : ℕ) (hk : k ≤ N) :
    (callAt cfg identifier m w t store k).1 = decide (((min k m.toNat : ℕ) : ℤ) < m) ∧
      (callAt cfg identifier m w t store k).2.1.remaining
        = max 0 (m - ((min k m.toNat : ℕ) : ℤ) - 1) := by
  have hev := runStates_events cfg identifier m w t store N hm hw hmono hwin h0 k (by omega)
  have hfresh :
      t k ∉ ((runStates cfg identifier m w t store k) (rlKey identifier)).events := by
    rw [hev]
    intro hmem
    obtain ⟨i, hi, hti⟩ := Finset.mem_image.mp hmem
    have hik : i < k := lt_of_lt_of_le (Finset.mem_range.mp hi) (min_le_left _ _)
    exact absurd (hmono.injective hti) (Nat.ne_of_lt hik)
  have hwink :
      ∀ ts ∈ ((runStates cfg identifier m w t store k) (rlKey identifier)).events,
        t k - (w : ℚ) < ts := by
    rw [hev]
    intro ts hts
    obtain ⟨i, hi, hti⟩ := Finset.mem_image.mp hts
    have h1 : t 0 ≤ t i := hmono.monotone (Nat.zero_le i)
    have h2 : t k ≤ t N := hmono.monotone hk
    rw [← hti]
    linarith
  have hcard :
      ((runStates cfg identifier m w t store k) (rlKey identifier)).events.card
        = min k m.toNat := by
    rw [hev, Finset.card_image_of_injective _ hmono.injective, Finset.card_range]
  have hstep := is_allowed_fresh cfg (runStates cfg identifier m w t store k)
    identifier m w (t k) (by omega) hw hfresh hwink
  constructor
  · show (RateLimiter.is_allowed cfg (runStates cfg identifier m w t store k)
        identifier (some m) (some w) (t k)).1 = _
    rw [hstep, hcard]
  · show (RateLimiter.is_allowed cfg (runStates cfg identifier m w t store k)
        identifier (some m) (some w) (t k)).2.1.remaining = _
    rw [hstep]
    simp only [hcard]

/-- `remaining` as computed by `is_allowed` is never negative. -/
lemma is_allowed_remaining_nonneg (cfg : Config) (store : Store) (identifier : String)
    (mr ws : Option ℤ) (now : ℚ) :
    0 ≤ (RateLimiter.is_allowed cfg store identifier mr ws now).2.1.remaining :=
  le_max_left _ _

/-- On a blocked call the computed `remaining` is `0`: the count is at least
`max_requests`, so `max(0, max_requests - count - 1)` collapses to `0`. -/
lemma is_allowed_blocked_remaining (cfg : Config) (store : Store) (identifier : String)
    (mr ws : Option ℤ) (now : ℚ)
    (hblocked : (RateLimiter.is_allowed cfg store identifier mr ws now).1 = false) :
    (RateLimiter.is_allowed cfg store identifier mr ws now).2.1.remaining = 0 := by
  simp only [RateLimiter.is_allowed, decide_eq_false_iff_not, not_lt] at hblocked
  simp only [RateLimiter.is_allowed]
  rw [max_eq_left (by omega)]

/-- On a blocked call `retry_after` is the effective window length. -/
lemma is_allowed_blocked_retry (cfg : Config) (store : Store) (identifier : String)
    (mr ws : Option ℤ) (now : ℚ)
    (hblocked : (RateLimiter.is_allowed cfg store identifier mr ws now).1 = false) :
    (RateLimiter.is_allowed cfg store identifier mr ws now).2.1.retry_after
      = pyOr ws cfg.default_window := by
  simp only [RateLimiter.is_allowed, decide_eq_false_iff_not, not_lt] at hblocked
  simp only [RateLimiter.is_allowed]
  rw [if_pos hblocked]

/-- Variant of `is_allowed_fresh` for a current timestamp that is already
stored: the `zadd` replaces the existing member, so the allowed branch
leaves the event set unchanged, and the rejection branch erases the
pre-existing entry. -/
lemma is_allowed_member (cfg : Config) (store : Store) (identifier : String)
    (m w : ℤ) (now : ℚ) (hm : m ≠ 0) (hw : 1 ≤ w)
    (hmem : now ∈ (store (rlKey identifier)).events)
    (hwin : ∀ ts ∈ (store (rlKey identifier)).events, now - (w : ℚ) < ts) :
    RateLimiter.is_allowed cfg store identifier (some m) (some w) now =
      (decide (((store (rlKey identifier)).events.card : ℤ) < m),
       ⟨m, max 0 (m - ((store (rlKey identifier)).events.card : ℤ) - 1),
        pyInt (now + (w : ℚ)),
        if m ≤ ((store (rlKey identifier)).events.card : ℤ) then w else 0⟩,
       store.update (rlKey identifier)
         (if ((store (rlKey identifier)).events.card : ℤ) < m then
            (⟨(store (rlKey identifier)).events, some (now + (w : ℚ))⟩ : Record)
          else
            ⟨(store (rlKey identifier)).events.erase now,
             if (store (rlKey identifier)).events.erase now = ∅ then none
             else some (now + (w : ℚ))⟩)) := by
  have hpm : pyOr (some m) cfg.default_requests = m := pyOr_some hm
  have hpw : pyOr (some w) cfg.default_window = w := pyOr_some (by omega)
  have hw0 : ¬ (w ≤ 0) := by omega
  have hpurge := zremrangebyscore_of_win (store (rlKey identifier)) 0 (now - (w : ℚ)) hwin
  have hins : insert now (store (rlKey identifier)).events
      = (store (rlKey identifier)).events := Finset.insert_eq_self.mpr hmem
  by_cases hc : (((store (rlKey identifier)).events.card : ℤ) < m)
  · simp [RateLimiter.is_allowed, hpm, hpw, hpurge, Record.zadd, Record.zcard,
      Record.expire, hw0, hins, Finset.ne_empty_of_mem hmem, hc]
  · simp [RateLimiter.is_allowed, hpm, hpw, hpurge, Record.zadd, Record.zcard,
      Record.expire, hw0, hins, Finset.ne_empty_of_mem hmem, hc, Record.zrem]

/-- On a blocked call with a fresh timestamp, the event set of the
identifier's record after the call is exactly the purged event set: the
inserted event is removed again. -/
lemma is_allowed_blocked_events (cfg : Config) (store : Store) (identifier : String)
    (m w : ℤ) (now : ℚ) (hm : m ≠ 0) (hw : 1 ≤ w)
    (hfresh : now ∉ (store (rlKey identifier)).events)
    (hblocked : (RateLimiter.is_allowed cfg store identifier (some m) (some w) now).1 = false) :
    ((RateLimiter.is_allowed cfg store identifier (some m) (some w) now).2.2
        (rlKey identifier)).events
      = (store (rlKey identifier)).events.filter
          (fun ts => ¬ (0 ≤ ts ∧ ts ≤ now - (w : ℚ))) := by
  have hpm : pyOr (some m) cfg.default_requests = m := pyOr_some hm
  have hpw : pyOr (some w) cfg.default_window = w := pyOr_some (by omega)
  have hw0 : ¬ (w ≤ 0) := by omega
  have hnotP : now ∉ (store (rlKey identifier)).events.filter
      (fun ts => ¬ (0 ≤ ts ∧ ts ≤ now - (w : ℚ))) := by
    intro hmem
    exact hfresh (Finset.mem_filter.mp hmem).1
  simp only [RateLimiter.is_allowed, hpm, hpw] at hblocked ⊢
  rw [hblocked]
  simp only [Bool.false_eq_true, if_false, Store.update_self]
  simp [Record.zremrangebyscore, Record.zadd, Record.zcard, Record.expire, Record.zrem,
    hw0, Finset.insert_ne_empty, Finset.erase_insert hnotP, hfresh]

/-- The count returned by `get_usage`: the cardinality of the purged event
set. -/
lemma get_usage_count (cfg : Config) (store : Store) (identifier : String)
    (w : ℤ) (now : ℚ) (hw : w ≠ 0) :
    (RateLimiter.get_usage cfg store identifier (some w) now).1
      = ((store (rlKey identifier)).events.filter
          (fun ts => ¬ (0 ≤ ts ∧ ts ≤ now - (w : ℚ)))).card := by
  simp [RateLimiter.get_usage, pyOr_some hw, Record.zcard, Record.zremrangebyscore]

/-! ### Claim theorems -/

/-- C1: for every identifier and policy `(m, w)` with `m ≥ 1`, sequential
`check` calls from an empty window record, at strictly increasing times that
all lie within one window of the first call, are allowed exactly while the
pre-insert count is strictly below `max_requests`: calls `1..m` (0-indexed
`k < m`) return `allowed = true` and the `(m+1)`-th call (`k = m`) returns
`allowed = false`. -/
theorem C1_sequential_admission (cfg : Config) (identifier : String) (m w : ℤ)
    (t : ℕ → ℚ) (store : Store)
    (hm : 1 ≤ m) (hw : 1 ≤ w) (hmono : StrictMono t)
    (hwin : t m.toNat < t 0 + (w : ℚ))
    (h0 : (store (rlKey identifier)).events = ∅) :
    ∀ k ≤ m.toNat, (callAt cfg identifier m w t store k).1 = decide ((k : ℤ) < m) := by
  intro k hk
  have h := (callAt_eq cfg identifier m w t store m.toNat hm hw hmono hwin h0 k hk).1
  rw [h, min_eq_left hk]

/-- Witness for C1 at a concrete input: policy `(2, 10)`, calls at times
`0, 1, 2`: the first two are allowed, the third is blocked. -/
theorem C1_sequential_admission_witness :
    (callAt cfg0 "u" 2 10 (fun i => (i : ℚ)) store0 0).1 = true ∧
    (callAt cfg0 "u" 2 10 (fun i => (i : ℚ)) store0 1).1 = true ∧
    (callAt cfg0 "u" 2 10 (fun i => (i : ℚ)) store0 2).1 = false := by
  have h := C1_sequential_admission cfg0 "u" 2 10 (fun i => (i : ℚ)) store0
    (by norm_num) (by norm_num)
    (fun a b hab => by simpa using (Nat.cast_lt (α := ℚ)).mpr hab)
    (by norm_num) rfl
  exact ⟨by simpa using h 0 (by norm_num), by simpa using h 1 (by norm_num),
    by simpa using h 2 (by norm_num)⟩

/-- C2: in the sequential run of C1, the `remaining` field of the `k`-th
allowed call (0-indexed `k < m`) equals `m - k - 1`; moreover, for every
call whatsoever `remaining` is never negative, and on every blocked call
`remaining` equals `0` (the code always computes
`max(0, max_requests - current_count - 1)`, which is `0` whenever the call
is blocked). -/
theorem C2_remaining_field (cfg : Config) (identifier : String) (m w : ℤ)
    (t : ℕ → ℚ) (store : Store)
    (hm : 1 ≤ m) (hw : 1 ≤ w) (hmono : StrictMono t)
    (hwin : t m.toNat < t 0 + (w : ℚ))
    (h0 : (store (rlKey identifier)).events = ∅)
    (k : ℕ) (hk : k < m.toNat)
    (store2 : Store) (mr ws : Option ℤ) (now : ℚ) :
    (callAt cfg identifier m w t store k).2.1.remaining = m - (k : ℤ) - 1 ∧
      0 ≤ (RateLimiter.is_allowed cfg store2 identifier mr ws now).2.1.remaining ∧
      ((RateLimiter.is_allowed cfg store2 identifier mr ws now).1 = false →
        (RateLimiter.is_allowed cfg store2 identifier mr ws now).2.1.remaining = 0) := by
  refine ⟨?_, ?_, ?_⟩
  · have h := (callAt_eq cfg identifier m w t store m.toNat hm hw hmono hwin h0 k
      (le_of_lt hk)).2
    rw [h, min_eq_left (le_of_lt hk)]
    rw [max_eq_right (by omega)]
  · exact le_max_left _ _
  · intro hblocked
    simp only [RateLimiter.is_allowed, decide_eq_false_iff_not, not_lt] at hblocked
    simp only [RateLimiter.is_allowed]
    rw [max_eq_left (by omega)]

/-- Witness for C2 at a concrete input: in the `(2, 10)` run the first call
reports `remaining = 1`; and a call blocked under policy `(1, 10)` against a
store already holding one in-window event reports `remaining = 0`. -/
theorem C2_remaining_field_witness :
    (callAt cfg0 "u" 2 10 (fun i => (i : ℚ)) store0 0).2.1.remaining = 1 ∧
      0 ≤ (RateLimiter.is_allowed cfg0 (fun _ => ⟨{0}, none⟩) "u"
            (some 1) (some 10) 5).2.1.remaining ∧
      ((RateLimiter.is_allowed cfg0 (fun _ => ⟨{0}, none⟩) "u"
            (some 1) (some 10) 5).1 = false →
        (RateLimiter.is_allowed cfg0 (fun _ => ⟨{0}, none⟩) "u"
            (some 1) (some 10) 5).2.1.remaining = 0) := by
  have h := C2_remaining_field cfg0 "u" 2 10 (fun i => (i : ℚ)) store0
    (by norm_num) (by norm_num)
    (fun a b hab => by simpa using (Nat.cast_lt (α := ℚ)).mpr hab)
    (by norm_num) rfl 0 (by norm_num)
    (fun _ => ⟨{0}, none⟩) (some 1) (some 10) 5
  exact ⟨by simpa using h.1, h.2.1, h.2.2⟩

/-- C7: `reset` deletes the identifier's window record entirely, and the
immediately following `check` under policy `(m, w)` with `m ≥ 1` behaves as
the first call on an empty record: `allowed = true` with
`remaining = m - 1`, regardless of prior history. -/
theorem C7_reset_then_check (cfg : Config) (store : Store) (identifier : String)
    (m w : ℤ) (now : ℚ) (hm : 1 ≤ m) :
    (RateLimiter.reset store identifier).2 (rlKey identifier) = emptyRecord ∧
    (RateLimiter.is_allowed cfg (RateLimiter.reset store identifier).2 identifier
        (some m) (some w) now).1 = true ∧
    (RateLimiter.is_allowed cfg (RateLimiter.reset store identifier).2 identifier
        (some m) (some w) now).2.1.remaining = m - 1 := by
  have hpm : pyOr (some m) cfg.default_requests = m := pyOr_some (by omega)
  have hkey : (RateLimiter.reset store identifier).2 (rlKey identifier) = emptyRecord :=
    Store.update_self _ _ _
  refine ⟨hkey, ?_, ?_⟩
  · simp only [RateLimiter.is_allowed, hpm, hkey, emptyRecord, Record.zremrangebyscore,
      Record.zcard, Finset.filter_empty, Finset.card_empty]
    simp only [Nat.cast_zero, decide_eq_true_eq]
    omega
  · simp only [RateLimiter.is_allowed, hpm, hkey, emptyRecord, Record.zremrangebyscore,
      Record.zcard, Finset.filter_empty, Finset.card_empty]
    simp only [Nat.cast_zero]
    rw [max_eq_right (by omega)]
    ring

/-- Witness for C7 at a concrete input: a store with two stored events for
`"u"` is reset; the next check under `(3, 10)` is allowed with
`remaining = 2`. -/
theorem C7_reset_then_check_witness :
    (RateLimiter.reset (fun _ => ⟨{0, 5}, some 10⟩) "u").2 (rlKey "u") = emptyRecord ∧
    (RateLimiter.is_allowed cfg0 (RateLimiter.reset (fun _ => ⟨{0, 5}, some 10⟩) "u").2
        "u" (some 3) (some 10) 6).1 = true ∧
    (RateLimiter.is_allowed cfg0 (RateLimiter.reset (fun _ => ⟨{0, 5}, some 10⟩) "u").2
        "u" (some 3) (some 10) 6).2.1.remaining = 2 := by
  have h := C7_reset_then_check cfg0 (fun _ => ⟨{0, 5}, some 10⟩) "u" 3 10 6 (by norm_num)
  exact ⟨h.1, h.2.1, by simpa using h.2.2⟩

/-- C3 (purge boundary, evaluated at the failing input): with one stored
event of age exactly `w` (timestamp `90`, `now = 100`, `w = 10`), the purge
of `rate_limiter.py` removes it (`usage = 0`, timestamps `≤ now - w` are
purged), but the `app.py` variant subtracts an extra `0.00001` from the
purge bound and retains it (`usage = 1`), contradicting the specified
exclusive-of-equal boundary. -/
theorem C3_purge_boundary_failing_input :
    (RateLimiter.get_usage cfg0 (fun _ => ⟨{90}, some 100⟩) "u" (some 10) 100).1 = 0 ∧
    (App.get_usage cfg0 (fun _ => ⟨{90}, some 100⟩) "u" (some 10) 100).1 = 1 := by
  decide

/-- C4 counterexample: when the blocked call's `current_time` (`100`)
coincides with an already-stored event timestamp, the rejection-path `zrem`
removes that pre-existing event, so `usage` drops from `2` to `1` across a
blocked call, refuting the unconditional claim. -/
theorem C4_counterexample :
    (RateLimiter.is_allowed cfg0 (fun _ => ⟨{50, 100}, some 110⟩) "u"
        (some 1) (some 60) 100).1 = false ∧
    (RateLimiter.get_usage cfg0 (fun _ => ⟨{50, 100}, some 110⟩) "u"
        (some 60) 100).1 = 2 ∧
    (RateLimiter.get_usage cfg0
        (RateLimiter.is_allowed cfg0 (fun _ => ⟨{50, 100}, some 110⟩) "u"
          (some 1) (some 60) 100).2.2
        "u" (some 60) 100).1 = 1 := by
  decide

/-- C4 (amended): a blocked check whose `current_time` is not already a
stored timestamp leaves the `usage` count (evaluated at the same instant
with the same window) unchanged — the inserted event is removed again;
and in a sequential run of `n+1` distinct-time in-window calls from an
empty record, `usage` at the last call's time equals `min (n+1) m`, the
number of allowed calls. -/
theorem C4_blocked_preserves_usage (cfg : Config) (store : Store) (identifier : String)
    (m w : ℤ) (now : ℚ) (hm : m ≠ 0) (hw : 1 ≤ w)
    (hfresh : now ∉ (store (rlKey identifier)).events)
    (hblocked : (RateLimiter.is_allowed cfg store identifier (some m) (some w) now).1 = false)
    (m2 w2 : ℤ) (t : ℕ → ℚ) (store2 : Store) (n : ℕ)
    (hm2 : 1 ≤ m2) (hw2 : 1 ≤ w2) (hmono : StrictMono t)
    (hwin : t n < t 0 + (w2 : ℚ))
    (h02 : (store2 (rlKey identifier)).events = ∅) :
    (RateLimiter.get_usage cfg
        (RateLimiter.is_allowed cfg store identifier (some m) (some w) now).2.2
        identifier (some w) now).1
      = (RateLimiter.get_usage cfg store identifier (some w) now).1 ∧
    (RateLimiter.get_usage cfg (runStates cfg identifier m2 w2 t store2 (n + 1))
        identifier (some w2) (t n)).1 = min (n + 1) m2.toNat := by
  constructor
  · rw [get_usage_count cfg _ identifier w now (by omega),
        get_usage_count cfg store identifier w now (by omega),
        is_allowed_blocked_events cfg store identifier m w now hm hw hfresh hblocked]
    congr 1
    refine Finset.filter_true_of_mem ?_
    intro x hx
    exact (Finset.mem_filter.mp hx).2
  · have hev := runStates_events cfg identifier m2 w2 t store2 n hm2 hw2 hmono hwin h02
      (n + 1) (le_refl _)
    rw [get_usage_count cfg _ identifier w2 (t n) (by omega), hev]
    have hkeep : ((Finset.range (min (n + 1) m2.toNat)).image t).filter
        (fun ts => ¬ (0 ≤ ts ∧ ts ≤ t n - (w2 : ℚ)))
        = (Finset.range (min (n + 1) m2.toNat)).image t := by
      refine Finset.filter_true_of_mem ?_
      intro x hx
      obtain ⟨i, hi, hix⟩ := Finset.mem_image.mp hx
      intro hc
      have h1 : t 0 ≤ t i := hmono.monotone (Nat.zero_le i)
      rw [← hix] at hc
      linarith [hc.2]
    rw [hkeep, Finset.card_image_of_injective _ hmono.injective, Finset.card_range]

/-- Witness for C4 at a concrete input: a blocked call at a fresh timestamp
(`(1, 10)` against a store holding `{0}`, `now = 5`) leaves `usage = 1`
unchanged; and after `3` calls under `(2, 10)` at times `0, 1, 2`, `usage`
is `2`. -/
theorem C4_blocked_preserves_usage_witness :
    (RateLimiter.get_usage cfg0
        (RateLimiter.is_allowed cfg0 (fun _ => ⟨{0}, none⟩) "u"
          (some 1) (some 10) 5).2.2 "u" (some 10) 5).1
      = (RateLimiter.get_usage cfg0 (fun _ => ⟨{0}, none⟩) "u" (some 10) 5).1 ∧
    (RateLimiter.get_usage cfg0
        (runStates cfg0 "u" 2 10 (fun i => (i : ℚ)) store0 3) "u" (some 10) 2).1 = 2 := by
  have h := C4_blocked_preserves_usage cfg0 (fun _ => ⟨{0}, none⟩) "u" 1 10 5
    (by norm_num) (by norm_num) (by decide) (by decide)
    2 10 (fun i => (i : ℚ)) store0 2
    (by norm_num) (by norm_num)
    (fun a b hab => by simpa using (Nat.cast_lt (α := ℚ)).mpr hab)
    (by norm_num) rfl
  exact ⟨h.1, by simpa using h.2⟩

/-- C5 counterexample: under policy `(1, 10)`, an allowed call at `t = 0`
sets the key's expiry to `10`; the blocked call at `t = 5` resets it to
`15` — the expiry is not preserved across a blocked check. -/
theorem C5_counterexample :
    ((RateLimiter.is_allowed cfg0 store0 "u" (some 1) (some 10) 0).2.2
        (rlKey "u")).expiry = some 10 ∧
    (RateLimiter.is_allowed cfg0
        (RateLimiter.is_allowed cfg0 store0 "u" (some 1) (some 10) 0).2.2
        "u" (some 1) (some 10) 5).1 = false ∧
    ((RateLimiter.is_allowed cfg0
        (RateLimiter.is_allowed cfg0 store0 "u" (some 1) (some 10) 0).2.2
        "u" (some 1) (some 10) 5).2.2 (rlKey "u")).expiry = some 15 ∧
    ((RateLimiter.is_allowed cfg0
        (RateLimiter.is_allowed cfg0 store0 "u" (some 1) (some 10) 0).2.2
        "u" (some 1) (some 10) 5).2.2 (rlKey "u")).expiry
      ≠ ((RateLimiter.is_allowed cfg0 store0 "u" (some 1) (some 10) 0).2.2
        (rlKey "u")).expiry := by
  decide

/-- C5 (amended): a blocked check removes the just-inserted event, but the
unconditional `expire` inside the pipeline has already reset the key's
time-to-live: whenever the record keeps at least one event, its expiry
after the blocked call is `now + window_seconds`, not its prior value. -/
theorem C5_blocked_resets_expiry (cfg : Config) (store : Store) (identifier : String)
    (m w : ℤ) (now : ℚ) (hm : m ≠ 0) (hw : 1 ≤ w)
    (hblocked : (RateLimiter.is_allowed cfg store identifier (some m) (some w) now).1 = false)
    (hne : ((RateLimiter.is_allowed cfg store identifier (some m) (some w) now).2.2
        (rlKey identifier)).events ≠ ∅) :
    ((RateLimiter.is_allowed cfg store identifier (some m) (some w) now).2.2
        (rlKey identifier)).expiry = some (now + (w : ℚ)) := by
  have hpm : pyOr (some m) cfg.default_requests = m := pyOr_some hm
  have hpw : pyOr (some w) cfg.default_window = w := pyOr_some (by omega)
  have hw0 : ¬ (w ≤ 0) := by omega
  simp only [RateLimiter.is_allowed, hpm, hpw] at hblocked hne ⊢
  rw [hblocked] at hne ⊢
  simp only [Bool.false_eq_true, if_false, Store.update_self] at hne ⊢
  simp only [Record.zremrangebyscore, Record.zadd, Record.zcard, Record.expire,
    Record.zrem, hw0, Finset.insert_ne_empty, if_false] at hne ⊢
  rw [if_neg hne]

/-- Witness for C5 at a concrete input: after the allowed call at `t = 0`
under `(1, 10)`, the blocked call at `t = 5` leaves the key with expiry
`15`. -/
theorem C5_blocked_resets_expiry_witness :
    ((RateLimiter.is_allowed cfg0
        (RateLimiter.is_allowed cfg0 store0 "u" (some 1) (some 10) 0).2.2
        "u" (some 1) (some 10) 5).2.2 (rlKey "u")).expiry = some 15 := by
  have h := C5_blocked_resets_expiry cfg0
    (RateLimiter.is_allowed cfg0 store0 "u" (some 1) (some 10) 0).2.2
    "u" 1 10 5 (by norm_num) (by norm_num) (by decide) (by decide)
  rw [h]
  norm_num

/-- C6 counterexample: a call with `max_requests = -1` raises nothing (the
model is total: it returns a normal verdict) and does perform store
access — it purges the stale entry `5` at `now = 100`, `w = 10`, so the
store state is changed by the call, refuting "raised before any store
access, and the store state is unchanged". -/
theorem C6_counterexample :
    (RateLimiter.is_allowed cfg0 (fun _ => ⟨{5}, some 100⟩) "x"
        (some (-1)) (some 10) 100).1 = false ∧
    (RateLimiter.is_allowed cfg0 (fun _ => ⟨{5}, some 100⟩) "x"
        (some (-1)) (some 10) 100).2.2 (rlKey "x") ≠ ⟨{5}, some 100⟩ := by
  decide

/-- C6 (amended): `is_allowed` performs no policy validation and raises no
error.  A negative `max_requests` is used as-is: the call proceeds through
the store pipeline and returns `allowed = false` with `remaining = 0` and
`retry_after = w`.  A zero (like a `None`) `max_requests` or
`window_seconds` is falsy in Python and silently falls back to the
configured default. -/
theorem C6_no_policy_validation (cfg : Config) (store : Store) (identifier : String)
    (m w : ℤ) (now : ℚ) (hm : m < 0) (hw : 1 ≤ w) :
    (RateLimiter.is_allowed cfg store identifier (some m) (some w) now).1 = false ∧
    (RateLimiter.is_allowed cfg store identifier (some m) (some w) now).2.1.remaining = 0 ∧
    (RateLimiter.is_allowed cfg store identifier (some m) (some w) now).2.1.retry_after = w ∧
    pyOr (some 0) cfg.default_requests = cfg.default_requests ∧
    pyOr (some 0) cfg.default_window = cfg.default_window := by
  have hpm : pyOr (some m) cfg.default_requests = m := pyOr_some (by omega)
  have hblocked :
      (RateLimiter.is_allowed cfg store identifier (some m) (some w) now).1 = false := by
    simp only [RateLimiter.is_allowed, hpm, decide_eq_false_iff_not, not_lt]
    exact le_trans (le_of_lt hm) (Int.natCast_nonneg _)
  refine ⟨hblocked, is_allowed_blocked_remaining _ _ _ _ _ _ hblocked, ?_,
    pyOr_zero _, pyOr_zero _⟩
  rw [is_allowed_blocked_retry _ _ _ _ _ _ hblocked]
  exact pyOr_some (by omega)

/-- Witness for C6 at a concrete input. -/
theorem C6_no_policy_validation_witness :
    (RateLimiter.is_allowed cfg0 (fun _ => ⟨{5}, some 100⟩) "x"
        (some (-1)) (some 10) 100).1 = false ∧
    (RateLimiter.is_allowed cfg0 (fun _ => ⟨{5}, some 100⟩) "x"
        (some (-1)) (some 10) 100).2.1.remaining = 0 ∧
    (RateLimiter.is_allowed cfg0 (fun _ => ⟨{5}, some 100⟩) "x"
        (some (-1)) (some 10) 100).2.1.retry_after = 10 ∧
    pyOr (some 0) cfg0.default_requests = cfg0.default_requests ∧
    pyOr (some 0) cfg0.default_window = cfg0.default_window :=
  C6_no_policy_validation cfg0 (fun _ => ⟨{5}, some 100⟩) "x" (-1) 10 100
    (by norm_num) (by norm_num)

/-- C10: when a check's `current_time` equals an already-stored timestamp,
the `zadd` member (`str(current_time)`) replaces the existing entry: two
allowed calls at the identical timestamp from an empty record leave a
single stored event, even though both return `allowed = true`. -/
theorem C10_identical_timestamp (cfg : Config) (store : Store) (identifier : String)
    (m w : ℤ) (tv : ℚ) (hm : 2 ≤ m) (hw : 1 ≤ w)
    (h0 : (store (rlKey identifier)).events = ∅) :
    (RateLimiter.is_allowed cfg store identifier (some m) (some w) tv).1 = true ∧
    (RateLimiter.is_allowed cfg
        (RateLimiter.is_allowed cfg store identifier (some m) (some w) tv).2.2
        identifier (some m) (some w) tv).1 = true ∧
    ((RateLimiter.is_allowed cfg
        (RateLimiter.is_allowed cfg store identifier (some m) (some w) tv).2.2
        identifier (some m) (some w) tv).2.2 (rlKey identifier)).events = {tv} ∧
    ((RateLimiter.is_allowed cfg
        (RateLimiter.is_allowed cfg store identifier (some m) (some w) tv).2.2
        identifier (some m) (some w) tv).2.2 (rlKey identifier)).events.card = 1 := by
  have h1 := is_allowed_fresh cfg store identifier m w tv (by omega) hw
    (by rw [h0]; exact Finset.not_mem_empty tv)
    (by rw [h0]; intro ts hts; exact absurd hts (Finset.not_mem_empty ts))
  rw [h0] at h1
  simp only [Finset.card_empty, Nat.cast_zero] at h1
  rw [if_pos (show (0:ℤ) < m by omega)] at h1
  have hv1 : (RateLimiter.is_allowed cfg store identifier (some m) (some w) tv).1 = true := by
    rw [h1]
    simp only [decide_eq_true_eq]
    omega
  have hs1 : (RateLimiter.is_allowed cfg store identifier (some m) (some w) tv).2.2
      (rlKey identifier) = ⟨{tv}, some (tv + (w : ℚ))⟩ := by
    rw [h1]
    simp [Store.update_self]
  have hwq : (1 : ℚ) ≤ (w : ℚ) := by exact_mod_cast hw
  have hmem2 : tv ∈ ((RateLimiter.is_allowed cfg store identifier (some m) (some w) tv).2.2
      (rlKey identifier)).events := by
    rw [hs1]
    exact Finset.mem_singleton_self tv
  have hwin2 : ∀ ts ∈ ((RateLimiter.is_allowed cfg store identifier (some m) (some w) tv).2.2
      (rlKey identifier)).events, tv - (w : ℚ) < ts := by
    rw [hs1]
    intro ts hts
    rw [Finset.mem_singleton] at hts
    subst hts
    linarith
  have h2 := is_allowed_member cfg
    (RateLimiter.is_allowed cfg store identifier (some m) (some w) tv).2.2
    identifier m w tv (by omega) hw hmem2 hwin2
  rw [hs1] at h2
  simp only [Finset.card_singleton, Nat.cast_one] at h2
  rw [if_pos (show (1:ℤ) < m by omega)] at h2
  refine ⟨hv1, ?_, ?_, ?_⟩
  · rw [h2]
    simp only [decide_eq_true_eq]
    omega
  · rw [h2]
    simp [Store.update_self]
  · rw [h2]
    simp [Store.update_self]

/-- Every call writes only its own identifier's key. -/
lemma applyCall_other (cfg : Config) (s : Store) (c : Call) (k : String)
    (hk : k ≠ rlKey c.ident) : applyCall cfg s c k = s k := by
  cases c with
  | check identifier mr ws tv => exact Store.update_other s (rlKey identifier) k _ hk
  | reset identifier => exact Store.update_other s (rlKey identifier) k _ hk
  | usage identifier ws tv => exact Store.update_other s (rlKey identifier) k _ hk

/-- A trace touching only other identifiers leaves a key unchanged. -/
lemma runTrace_other (cfg : Config) (store : Store) (trace : List Call) (k : String)
    (htr : ∀ c ∈ trace, k ≠ rlKey c.ident) : runTrace cfg store trace k = store k := by
  induction trace generalizing store with
  | nil => rfl
  | cons c cs ih =>
    rw [runTrace, ih (applyCall cfg store c) (fun d hd => htr d (List.mem_cons_of_mem c hd))]
    exact applyCall_other cfg store c k (htr c (List.mem_cons_self c cs))

/-- The verdict and metadata of a check depend on the store only through
the identifier's own key. -/
lemma is_allowed_congr (cfg : Config) (s1 s2 : Store) (identifier : String)
    (mr ws : Option ℤ) (tv : ℚ)
    (h : s1 (rlKey identifier) = s2 (rlKey identifier)) :
    (RateLimiter.is_allowed cfg s1 identifier mr ws tv).1
      = (RateLimiter.is_allowed cfg s2 identifier mr ws tv).1 ∧
    (RateLimiter.is_allowed cfg s1 identifier mr ws tv).2.1
      = (RateLimiter.is_allowed cfg s2 identifier mr ws tv).2.1 := by
  constructor <;> simp only [RateLimiter.is_allowed, h]

/-- The count returned by `get_usage` depends on the store only through the
identifier's own key. -/
lemma get_usage_congr (cfg : Config) (s1 s2 : Store) (identifier : String)
    (ws : Option ℤ) (tv : ℚ)
    (h : s1 (rlKey identifier) = s2 (rlKey identifier)) :
    (RateLimiter.get_usage cfg s1 identifier ws tv).1
      = (RateLimiter.get_usage cfg s2 identifier ws tv).1 := by
  simp only [RateLimiter.get_usage, h]

/-- C8: distinct identifiers are fully isolated: any trace of `check`,
`reset` or `usage` calls addressing only `id1 ≠ id2` changes neither the
verdict nor any metadata field of a subsequent check for `id2`, nor its
usage count — the results for `id2` are the same as if the trace had never
run. -/
theorem C8_identifier_isolation (cfg : Config) (store : Store) (id1 id2 : String)
    (hne : id1 ≠ id2) (trace : List Call)
    (htr : ∀ c ∈ trace, c.ident = id1)
    (mr ws : Option ℤ) (tv : ℚ) :
    (RateLimiter.is_allowed cfg (runTrace cfg store trace) id2 mr ws tv).1
      = (RateLimiter.is_allowed cfg store id2 mr ws tv).1 ∧
    (RateLimiter.is_allowed cfg (runTrace cfg store trace) id2 mr ws tv).2.1
      = (RateLimiter.is_allowed cfg store id2 mr ws tv).2.1 ∧
    (RateLimiter.get_usage cfg (runTrace cfg store trace) id2 ws tv).1
      = (RateLimiter.get_usage cfg store id2 ws tv).1 := by
  have hkey : runTrace cfg store trace (rlKey id2) = store (rlKey id2) := by
    refine runTrace_other cfg store trace (rlKey id2) ?_
    intro c hc
    rw [htr c hc]
    intro hkk
    exact hne (rlKey_injective hkk).symm
  exact ⟨(is_allowed_congr cfg _ store id2 mr ws tv hkey).1,
    (is_allowed_congr cfg _ store id2 mr ws tv hkey).2,
    get_usage_congr cfg _ store id2 ws tv hkey⟩

/-- Witness for C8 at a concrete input: identifier `"a"` exhausts its
quota, is reset and polled; the verdict, metadata and usage for `"b"` are
unaffected. -/
theorem C8_identifier_isolation_witness :
    (RateLimiter.is_allowed cfg0
        (runTrace cfg0 store0
          [Call.check "a" (some 1) (some 10) 0, Call.check "a" (some 1) (some 10) 1,
           Call.reset "a", Call.usage "a" (some 10) 2])
        "b" (some 1) (some 10) 2).1
      = (RateLimiter.is_allowed cfg0 store0 "b" (some 1) (some 10) 2).1 ∧
    (RateLimiter.is_allowed cfg0
        (runTrace cfg0 store0
          [Call.check "a" (some 1) (some 10) 0, Call.check "a" (some 1) (some 10) 1,
           Call.reset "a", Call.usage "a" (some 10) 2])
        "b" (some 1) (some 10) 2).2.1
      = (RateLimiter.is_allowed cfg0 store0 "b" (some 1) (some 10) 2).2.1 ∧
    (RateLimiter.get_usage cfg0
        (runTrace cfg0 store0
          [Call.check "a" (some 1) (some 10) 0, Call.check "a" (some 1) (some 10) 1,
           Call.reset "a", Call.usage "a" (some 10) 2])
        "b" (some 10) 2).1
      = (RateLimiter.get_usage cfg0 store0 "b" (some 10) 2).1 :=
  C8_identifier_isolation cfg0 store0 "a" "b" (by decide)
    [Call.check "a" (some 1) (some 10) 0, Call.check "a" (some 1) (some 10) 1,
     Call.reset "a", Call.usage "a" (some 10) 2]
    (by intro c hc; fin_cases hc <;> rfl)
    (some 1) (some 10) 2

/-- The two phases compose to exactly one `is_allowed` call: the model's
`phase1`/`phase2` split refines the embedded code. -/
lemma is_allowed_as_phases (cfg : Config) (store : Store) (identifier : String)
    (m w : ℤ) (now : ℚ) (hm : m ≠ 0) (hw : w ≠ 0) :
    (RateLimiter.is_allowed cfg store identifier (some m) (some w) now).1
      = (phase1 (store (rlKey identifier)) ⟨m, w, now⟩).1 ∧
    (RateLimiter.is_allowed cfg store identifier (some m) (some w) now).2.2
        (rlKey identifier)
      = phase2 (phase1 (store (rlKey identifier)) ⟨m, w, now⟩).2 ⟨m, w, now⟩
          (phase1 (store (rlKey identifier)) ⟨m, w, now⟩).1 := by
  have hpm := pyOr_some (d := cfg.default_requests) hm
  have hpw := pyOr_some (d := cfg.default_window) hw
  constructor
  · simp only [RateLimiter.is_allowed, phase1, hpm, hpw]
  · simp only [RateLimiter.is_allowed, phase1, phase2, hpm, hpw, Store.update_self]

/-- C9 counterexample to atomicity of steps 1-5 *plus* step 7: record
`{0}`, policy `(1, 10)`, call `A` at `t = 5`, call `B` at `t = 11`.  In
both serial orders the `t = 11` call is allowed (the `t = 0` entry ages
out and `A`'s retraction has removed `A`'s inserted event); in the
interleaved schedule `A.pipeline, B.pipeline, A.retract, B.retract`,
`B`'s pipeline still sees `A`'s doomed insert and both calls are blocked —
an outcome matching no serial order. -/
theorem C9_counterexample :
    (runInterleaved ⟨{0}, none⟩ ⟨1, 10, 5⟩ ⟨1, 10, 11⟩).1 = false ∧
    (runInterleaved ⟨{0}, none⟩ ⟨1, 10, 5⟩ ⟨1, 10, 11⟩).2.1 = false ∧
    (runSerial ⟨{0}, none⟩ ⟨1, 10, 5⟩ ⟨1, 10, 11⟩).1 = false ∧
    (runSerial ⟨{0}, none⟩ ⟨1, 10, 5⟩ ⟨1, 10, 11⟩).2.1 = true ∧
    (runSerial ⟨{0}, none⟩ ⟨1, 10, 11⟩ ⟨1, 10, 5⟩).1 = true ∧
    (runSerial ⟨{0}, none⟩ ⟨1, 10, 11⟩ ⟨1, 10, 5⟩).2.1 = false := by
  decide

/-- C9 (amended): two racing `(1, w)` checks from an empty record, at times
within one window of each other: under every schedule (serial or with the
second pipeline before the first call's retraction), the call whose
pipeline executes first is allowed and the other is blocked — exactly one
receives `allowed = true`, because the pipelines themselves serialize. -/
theorem C9_exactly_one_admitted (w : ℤ) (t1 t2 : ℚ)
    (hw : 1 ≤ w) (h12 : t2 - (w : ℚ) < t1) :
    (runSerial emptyRecord ⟨1, w, t1⟩ ⟨1, w, t2⟩).1 = true ∧
    (runSerial emptyRecord ⟨1, w, t1⟩ ⟨1, w, t2⟩).2.1 = false ∧
    (runInterleaved emptyRecord ⟨1, w, t1⟩ ⟨1, w, t2⟩).1 = true ∧
    (runInterleaved emptyRecord ⟨1, w, t1⟩ ⟨1, w, t2⟩).2.1 = false ∧
    (runInterleaved2 emptyRecord ⟨1, w, t1⟩ ⟨1, w, t2⟩).1 = true ∧
    (runInterleaved2 emptyRecord ⟨1, w, t1⟩ ⟨1, w, t2⟩).2.1 = false := by
  have hw0 : ¬ (w ≤ 0) := by omega
  have hp1 : phase1 emptyRecord ⟨1, w, t1⟩ = (true, ⟨{t1}, some (t1 + (w : ℚ))⟩) := by
    simp [phase1, emptyRecord, Record.zremrangebyscore, Record.zcard, Record.zadd,
      Record.expire, hw0]
  have hkeep := zremrangebyscore_of_win (⟨{t1}, some (t1 + (w : ℚ))⟩ : Record) 0
    (t2 - (w : ℚ))
    (by intro ts hts; rw [Finset.mem_singleton] at hts; subst hts; exact h12)
  have hp2 : (phase1 (⟨{t1}, some (t1 + (w : ℚ))⟩ : Record) ⟨1, w, t2⟩).1 = false := by
    simp [phase1, hkeep, Record.zcard]
  refine ⟨?_, ?_, ?_, ?_, ?_, ?_⟩ <;>
    simp [runSerial, runInterleaved, runInterleaved2, hp1, phase2, hp2]

/-- Witness for C9's amended statement at a concrete input: `w = 10`,
`t1 = 3`, `t2 = 4`. -/
theorem C9_exactly_one_admitted_witness :
    (runSerial emptyRecord ⟨1, 10, 3⟩ ⟨1, 10, 4⟩).1 = true ∧
    (runSerial emptyRecord ⟨1, 10, 3⟩ ⟨1, 10, 4⟩).2.1 = false ∧
    (runInterleaved emptyRecord ⟨1, 10, 3⟩ ⟨1, 10, 4⟩).1 = true ∧
    (runInterleaved emptyRecord ⟨1, 10, 3⟩ ⟨1, 10, 4⟩).2.1 = false ∧
    (runInterleaved2 emptyRecord ⟨1, 10, 3⟩ ⟨1, 10, 4⟩).1 = true ∧
    (runInterleaved2 emptyRecord ⟨1, 10, 3⟩ ⟨1, 10, 4⟩).2.1 = false :=
  C9_exactly_one_admitted 10 3 4 (by norm_num) (by norm_num)

/-- Witness for C10 at a concrete input: two calls at time `3` under
`(2, 10)`: both allowed, one stored event. -/
theorem C10_identical_timestamp_witness :
    (RateLimiter.is_allowed cfg0 store0 "u" (some 2) (some 10) 3).1 = true ∧
    (RateLimiter.is_allowed cfg0
        (RateLimiter.is_allowed cfg0 store0 "u" (some 2) (some 10) 3).2.2
        "u" (some 2) (some 10) 3).1 = true ∧
    ((RateLimiter.is_allowed cfg0
        (RateLimiter.is_allowed cfg0 store0 "u" (some 2) (some 10) 3).2.2
        "u" (some 2) (some 10) 3).2.2 (rlKey "u")).events = {3} ∧
    ((RateLimiter.is_allowed cfg0
        (RateLimiter.is_allowed cfg0 store0 "u" (some 2) (some 10) 3).2.2
        "u" (some 2) (some 10) 3).2.2 (rlKey "u")).events.card = 1 :=
  C10_identical_timestamp cfg0 store0 "u" 2 10 3 (by norm_num) (by norm_num) rfl

end

end RateDist
